import Mathlib

/-!
Verification of the AIFF/AIFC decoder of `mattetti/exp`.

The repository holds two successive versions of `audio/aiff/decoder.go`
(concatenated in the source tree): a first version whose `Decode` loop skips
unclaimed chunks with `jumpTo`, and a second version whose loop routes them
through `dispatchToChan` (the optional streaming hand-off), plus the shared
`audio` package with the `Clip` interface and `IeeeFloatToInt`.

The embedding models the byte stream consumed by the decoder as a list of
bytes with a read position (`ByteStream`), mirroring the `io.ReadSeeker`
backed by a byte buffer: `binary.Read` becomes `readFull`, `io.CopyN` to
`ioutil.Discard` becomes `jumpTo`, and `Seek(-n, 1)` becomes a subtraction
on the position.  The decode loops are embedded with an explicit fuel
parameter (the Go loop can fail to terminate when a backward seek re-exposes
a `COMM` id); `none` marks fuel exhaustion, never a result of the program.
-/

namespace Aiff

/-- A byte stream: backing data plus the current read position.  Models the
`io.ReadSeeker` the decoder consumes; entries are bytes (values < 256). -/
structure ByteStream where
  data : List Nat
  pos : Nat
deriving DecidableEq, Repr

/-- The bytes that are still unread. -/
def ByteStream.remaining (s : ByteStream) : List Nat := s.data.drop s.pos

/-- Read errors of the underlying stream: `io.EOF` and `io.ErrUnexpectedEOF`. -/
inductive RErr where
  | eof
  | unexpectedEOF
deriving DecidableEq, Repr

/-- `binary.Read` of an `n`-byte value via `io.ReadFull` on a byte-backed
reader: `io.EOF` when nothing is left, `io.ErrUnexpectedEOF` (consuming the
tail) on a short read, otherwise exactly `n` bytes are consumed. -/
def readFull (s : ByteStream) (n : Nat) : Except RErr (List Nat) × ByteStream :=
  if n ≤ s.data.length - s.pos then
    (.ok ((s.data.drop s.pos).take n), ⟨s.data, s.pos + n⟩)
  else if s.data.length ≤ s.pos then
    (.error .eof, s)
  else
    (.error .unexpectedEOF, ⟨s.data, s.data.length⟩)

/-- Big-endian `uint32` built from 4 bytes (the layout `binary.BigEndian` reads). -/
def u32be : List Nat → Nat
  | [a, b, c, d] => ((a * 256 + b) * 256 + c) * 256 + d
  | _ => 0

/-- Big-endian `uint16` built from 2 bytes. -/
def u16be : List Nat → Nat
  | [a, b] => a * 256 + b
  | _ => 0

/-- Single byte read as `uint8`. -/
def u8 : List Nat → Nat
  | [a] => a
  | _ => 0

/-- ASCII bytes of "FORM". -/
def formID : List Nat := [70, 79, 82, 77]

/-- ASCII bytes of "AIFF". -/
def aiffID : List Nat := [65, 73, 70, 70]

/-- ASCII bytes of "AIFC". -/
def aifcID : List Nat := [65, 73, 70, 67]

/-- ASCII bytes of "COMM". -/
def commID : List Nat := [67, 79, 77, 77]

/-- ASCII bytes of "SSND". -/
def ssndID : List Nat := [83, 83, 78, 68]

/-- The test guarding the `return 0` branch of `IeeeFloatToInt`: the source
reads `(b[0] & 0x80) == 1`, a bitwise AND compared for equality with `1`. -/
def negTest (b0 : Nat) : Bool := b0 &&& 128 == 1

/-- The shift amount `29 - uint32(b[1])` computed in `uint32` arithmetic
(wrapping subtraction modulo `2 ^ 32`). -/
def shiftAmt (b1 : Nat) : Nat := ((29 - (b1 : Int)) % (4294967296 : Int)).toNat

/-- Body of `IeeeFloatToInt` on the six bytes it inspects, mirroring the
source branch for branch.  The mantissa is composed in `uint32` arithmetic
(the `% 2 ^ 32` reduction; a right shift by 32 or more yields 0, as Go's
shift of a `uint32` does). -/
def ieeeCore (b0 b1 b2 b3 b4 b5 : Nat) : Nat :=
  if negTest b0 then 0
  else if b0 ≤ 63 then 1
  else if 64 < b0 then 67108864
  else if b0 = 64 ∧ 28 < b1 then 800000000
  else
    let i := ((b2 <<< 23) ||| (b3 <<< 15) ||| (b4 <<< 7) ||| (b5 >>> 1)) % 4294967296
    if shiftAmt b1 < 32 then i >>> shiftAmt b1 else 0

/-- `audio.IeeeFloatToInt`: converts the 10-byte IEEE extended float into an
int.  The source takes a `[10]byte`; lists of any other length fall into a
default case that is unreachable from the decoder. -/
def IeeeFloatToInt (b : List Nat) : Nat :=
  match b with
  | [b0, b1, b2, b3, b4, b5, _b6, _b7, _b8, _b9] => ieeeCore b0 b1 b2 b3 b4 b5
  | _ => 0

/-- `ieeeCore` with the negative-sign branch removed: used to state that the
branch is dead code. -/
def ieeeCoreNoSign (b0 b1 b2 b3 b4 b5 : Nat) : Nat :=
  if b0 ≤ 63 then 1
  else if 64 < b0 then 67108864
  else if b0 = 64 ∧ 28 < b1 then 800000000
  else
    let i := ((b2 <<< 23) ||| (b3 <<< 15) ||| (b4 <<< 7) ||| (b5 >>> 1)) % 4294967296
    if shiftAmt b1 < 32 then i >>> shiftAmt b1 else 0

/-- Modelled from the spec: the documented four-case policy of the
extended-float decoder, in order (sections 4.4 items 2-5 of the spec), with
the final mantissa-shift formula written exactly as the spec gives it. -/
def ieeeSpecPolicy (b0 b1 b2 b3 b4 b5 : Nat) : Nat :=
  if b0 ≤ 63 then 1
  else if 64 < b0 then 67108864
  else if b0 = 64 ∧ 28 < b1 then 800000000
  else ((b2 <<< 23) ||| (b3 <<< 15) ||| (b4 <<< 7) ||| (b5 >>> 1)) >>> (29 - b1)

theorem land128_ne_one (n : Nat) : n &&& 128 ≠ 1 := by
  intro h
  have h0 := congrArg (fun m => m.testBit 0) h
  simp [Nat.testBit_land] at h0

theorem negTest_false (b0 : Nat) : negTest b0 = false := by
  unfold negTest
  simp [land128_ne_one b0]

theorem lor_lt_two_pow32 {x y : Nat} (hx : x < 4294967296) (hy : y < 4294967296) :
    x ||| y < 4294967296 := by
  have := Nat.bitwise_lt (f := or) (n := 32) (x := x) (y := y) (by norm_num at hx ⊢; omega)
    (by norm_num at hy ⊢; omega)
  simpa [HOr.hOr, OrOp.or, Nat.lor] using this

theorem mantissa_lt (b2 b3 b4 b5 : Nat) (h2 : b2 < 256) (h3 : b3 < 256)
    (h4 : b4 < 256) (h5 : b5 < 256) :
    (b2 <<< 23) ||| (b3 <<< 15) ||| (b4 <<< 7) ||| (b5 >>> 1) < 4294967296 := by
  have e2 : b2 <<< 23 < 4294967296 := by rw [Nat.shiftLeft_eq]; omega
  have e3 : b3 <<< 15 < 4294967296 := by rw [Nat.shiftLeft_eq]; omega
  have e4 : b4 <<< 7 < 4294967296 := by rw [Nat.shiftLeft_eq]; omega
  have e5 : b5 >>> 1 < 4294967296 := by rw [Nat.shiftRight_eq_div_pow]; omega
  exact lor_lt_two_pow32 (lor_lt_two_pow32 (lor_lt_two_pow32 e2 e3) e4) e5

theorem shiftAmt_eq (b1 : Nat) (h : b1 ≤ 28) : shiftAmt b1 = 29 - b1 := by
  unfold shiftAmt
  omega

theorem ieeeCore_eq_policy (b0 b1 b2 b3 b4 b5 : Nat) (h2 : b2 < 256) (h3 : b3 < 256)
    (h4 : b4 < 256) (h5 : b5 < 256) :
    ieeeCore b0 b1 b2 b3 b4 b5 = ieeeSpecPolicy b0 b1 b2 b3 b4 b5 := by
  unfold ieeeCore ieeeSpecPolicy
  rw [negTest_false, if_neg (by simp)]
  by_cases c1 : b0 ≤ 63
  · simp [c1]
  · rw [if_neg c1, if_neg c1]
    by_cases c2 : 64 < b0
    · simp [c2]
    · rw [if_neg c2, if_neg c2]
      by_cases c3 : b0 = 64 ∧ 28 < b1
      · simp [c3]
      · rw [if_neg c3, if_neg c3]
        have hb1 : b1 ≤ 28 := by
          rcases Nat.lt_or_ge 28 b1 with h | h
          · exact absurd ⟨by omega, h⟩ c3
          · exact h
        have hm := mantissa_lt b2 b3 b4 b5 h2 h3 h4 h5
        rw [shiftAmt_eq b1 hb1]
        simp only [Nat.mod_eq_of_lt hm]
        rw [if_pos (by omega)]

/-- The mutable fields of the Go `Decoder` that the COMM parser touches. -/
structure CommState where
  commSize : Nat
  numChans : Nat
  numSampleFrames : Nat
  sampleSize : Nat
  sampleRate : Nat
  encoding : List Nat
  encodingName : List Nat
deriving DecidableEq, Repr

/-- A zero-valued `Decoder`, as produced by `&Decoder{r: r}`. -/
def CommState.init : CommState := ⟨0, 0, 0, 0, 0, [0, 0, 0, 0], []⟩

/-- Errors a decode can surface: stream errors, the `ErrFmtNotSupported`
format errors of `readHeaders` (carrying the offending marker), and the
field-parse errors of `parseCommChunk` (carrying the field name). -/
inductive DErr where
  | ioErr (e : RErr)
  | fmtNotSupported (marker : List Nat)
  | fieldParse (field : String)
deriving DecidableEq, Repr

/-- `readHeaders`: reads the 4-byte form marker, the 4-byte declared size and
the 4-byte format marker, failing with a format error when the form marker is
not "FORM" or the format marker is neither "AIFF" nor "AIFC".  The returned
stream records how far reading advanced. -/
def readHeaders (s : ByteStream) : Except DErr (List Nat × Nat × List Nat) × ByteStream :=
  let r1 := readFull s 4
  match r1.1 with
  | .error e => (.error (.ioErr e), r1.2)
  | .ok idb =>
    if idb ≠ formID then (.error (.fmtNotSupported idb), r1.2)
    else
      let r2 := readFull r1.2 4
      match r2.1 with
      | .error e => (.error (.ioErr e), r2.2)
      | .ok szb =>
        let r3 := readFull r2.2 4
        match r3.1 with
        | .error e => (.error (.ioErr e), r3.2)
        | .ok fmtb =>
          if fmtb ≠ aiffID ∧ fmtb ≠ aifcID then (.error (.fmtNotSupported fmtb), r3.2)
          else (.ok (idb, u32be szb, fmtb), r3.2)

/-- `parseCommChunk`: reads, in order, the channel count (uint16), the sample
frame count (uint32), the sample size (uint16) and the 10-byte extended-float
sample rate, then for AIFC the 4-byte encoding and a Pascal-style string.
Each failed read surfaces a field-parse error; fields parsed before the
failure stay set (the Go method mutates the decoder as it goes). -/
def parseCommChunk (fmt : List Nat) (size : Nat) (d : CommState) (s : ByteStream) :
    Option DErr × CommState × ByteStream :=
  let d0 := { d with commSize := size }
  let r1 := readFull s 2
  match r1.1 with
  | .error _ => (some (.fieldParse "num of channels"), d0, r1.2)
  | .ok chb =>
    let d1 := { d0 with numChans := u16be chb }
    let r2 := readFull r1.2 4
    match r2.1 with
    | .error _ => (some (.fieldParse "num of sample frames"), d1, r2.2)
    | .ok frb =>
      let d2 := { d1 with numSampleFrames := u32be frb }
      let r3 := readFull r2.2 2
      match r3.1 with
      | .error _ => (some (.fieldParse "sample size"), d2, r3.2)
      | .ok ssb =>
        let d3 := { d2 with sampleSize := u16be ssb }
        let r4 := readFull r3.2 10
        match r4.1 with
        | .error _ => (some (.fieldParse "sample rate"), d3, r4.2)
        | .ok srb =>
          let d4 := { d3 with sampleRate := IeeeFloatToInt srb }
          if fmt = aifcID then
            let r5 := readFull r4.2 4
            match r5.1 with
            | .error _ => (some (.fieldParse "AIFC encoding"), d4, r5.2)
            | .ok encb =>
              let d5 := { d4 with encoding := encb }
              let r6 := readFull r5.2 1
              match r6.1 with
              | .error _ => (some (.fieldParse "AIFC encoding"), d5, r6.2)
              | .ok nlb =>
                let r7 := readFull r6.2 (u8 nlb)
                match r7.1 with
                | .error _ => (some (.fieldParse "AIFC encoding"), d5, r7.2)
                | .ok desc => (none, { d5 with encodingName := desc }, r7.2)
          else (none, d4, r4.2)

/-- `iDnSize` / `IDnSize` (identical in both file versions): reads the 4-byte
chunk id, then the uint32 block size.  The second error check in the source
compares `err != err`, which never holds, so a failed size read is swallowed:
the id is returned with a zero block size and a nil error. -/
def iDnSize (s : ByteStream) : (List Nat × Nat × Option RErr) × ByteStream :=
  let r1 := readFull s 4
  match r1.1 with
  | .error e => (([0, 0, 0, 0], 0, some e), r1.2)
  | .ok idb =>
    let r2 := readFull r1.2 4
    match r2.1 with
    | .error _ => ((idb, 0, none), r2.2)
    | .ok szb => ((idb, u32be szb, none), r2.2)

/-- `jumpTo`: `io.CopyN(ioutil.Discard, r, n)` advances by `min n remaining`
and reports `io.EOF` exactly when fewer than `n` bytes were left. -/
def jumpTo (s : ByteStream) (n : Nat) : Option RErr × ByteStream :=
  if n ≤ s.data.length - s.pos then (none, ⟨s.data, s.pos + n⟩)
  else (some .eof, ⟨s.data, s.data.length⟩)

/-- Result of the first-version `Decode`: the clip fields, a ghost log of the
backward seeks performed (amount, position after the seek), and the stream in
its final state (the source sets `clip.r = r` before returning). -/
structure DecodeOut where
  channels : Nat
  bitDepth : Nat
  sampleRate : Nat
  size : Nat
  seeks : List (Nat × Nat)
  stream : ByteStream
deriving DecidableEq, Repr

/-- The chunk-traversal loop of the first-version `Decode` (the variant that
skips unclaimed chunks with `jumpTo` and propagates skip errors).  Mirrored
bug for bug: a nil-error result from `iDnSize` continues, any error from it
exits the loop successfully (the shadowed `err` never reaches the loop
condition), `parseCommChunk`'s error is discarded, and the `break` statements
of the `switch` exit only the switch, never the loop.  `fuel` bounds the
iteration count; `none` means the bound was hit. -/
def decodeLoop : Nat → List Nat → CommState → Nat → Nat → Nat → Nat → Nat →
    List (Nat × Nat) → ByteStream → Option (Except DErr DecodeOut)
  | 0, _, _, _, _, _, _, _, _, _ => none
  | fuel + 1, fmt, d, channels, bitDepth, sampleRate, size, rewind, seeks, s =>
    let r1 := iDnSize s
    let id := r1.1.1
    let sz := r1.1.2.1
    let s1 := r1.2
    if (r1.1.2.2).isSome then
      some (.ok ⟨channels, bitDepth, sampleRate, size, seeks, s1⟩)
    else if id = commID then
      let pr := parseCommChunk fmt sz d s1
      let d1 := pr.2.1
      let s2 := pr.2.2
      if 0 < rewind then
        decodeLoop fuel fmt d1 d1.numChans d1.sampleSize d1.sampleRate size rewind
          (seeks ++ [(rewind, s2.pos - rewind)]) ⟨s2.data, s2.pos - rewind⟩
      else
        decodeLoop fuel fmt d1 d1.numChans d1.sampleSize d1.sampleRate size rewind seeks s2
    else if id = ssndID then
      if sampleRate = 0 then
        let j := jumpTo s1 sz
        if (j.1).isSome then some (.error (.ioErr .eof))
        else decodeLoop fuel fmt d channels bitDepth sampleRate sz (rewind + sz) seeks j.2
      else
        decodeLoop fuel fmt d channels bitDepth sampleRate sz rewind seeks s1
    else
      let rewind1 := if size ≠ 0 then rewind + sz else rewind
      let j := jumpTo s1 sz
      if (j.1).isSome then some (.error (.ioErr .eof))
      else decodeLoop fuel fmt d channels bitDepth sampleRate size rewind1 seeks j.2

/-- The first-version `Decode`: validate the headers, then run the traversal
loop on a zero-valued decoder and clip. -/
def Decode (fuel : Nat) (s : ByteStream) : Option (Except DErr DecodeOut) :=
  let h := readHeaders s
  match h.1 with
  | .error e => some (.error e)
  | .ok (_, _, fmtb) => decodeLoop fuel fmtb CommState.init 0 0 0 0 0 [] h.2

/-- Result of the second-version `Decode`: clip fields, the ghost log of
chunks handed to the consumer channel (id and declared size, in hand-off
order), and the final stream. -/
structure DecodeOutS where
  channels : Nat
  bitDepth : Nat
  sampleRate : Nat
  size : Nat
  dispatched : List (List Nat × Nat)
  stream : ByteStream
deriving DecidableEq, Repr

/-- Stream effect of `dispatchToChan`: with no channel it is `jumpTo` with
the error discarded (the second-version `Decode` ignores the return value);
with a registered channel the consumer owning the rendezvous is responsible
for advancing the stream by exactly the declared size before signalling, so a
contract-obeying consumer has the same stream effect.  The rendezvous itself
(channel send plus wait-group wait) is synchronisation with no further state
effect. -/
def dispatchAdvance (s : ByteStream) (n : Nat) : ByteStream := (jumpTo s n).2

/-- The chunk-traversal loop of the second-version `Decode` (the variant that
routes skips through `dispatchToChan` and discards its error).  `chan` tells
whether a consumer channel is registered (`NewDecoder` with a channel versus
the nil channel of a fresh `Decode`); when it is, each dispatched chunk is
appended to the ghost `disp` log.  Note the source dispatches the SSND chunk
itself when it is met before COMM (line `d.dispatchToChan(id, size)` in the
`ssndID` case). -/
def decodeLoopS : Nat → Bool → List Nat → CommState → Nat → Nat → Nat → Nat → Nat →
    List (List Nat × Nat) → ByteStream → Option (Except DErr DecodeOutS)
  | 0, _, _, _, _, _, _, _, _, _, _ => none
  | fuel + 1, chan, fmt, d, channels, bitDepth, sampleRate, size, rewind, disp, s =>
    let r1 := iDnSize s
    let id := r1.1.1
    let sz := r1.1.2.1
    let s1 := r1.2
    if (r1.1.2.2).isSome then
      some (.ok ⟨channels, bitDepth, sampleRate, size, disp, s1⟩)
    else if id = commID then
      let pr := parseCommChunk fmt sz d s1
      let d1 := pr.2.1
      let s2 := pr.2.2
      if 0 < rewind then
        decodeLoopS fuel chan fmt d1 d1.numChans d1.sampleSize d1.sampleRate size rewind
          disp ⟨s2.data, s2.pos - rewind⟩
      else
        decodeLoopS fuel chan fmt d1 d1.numChans d1.sampleSize d1.sampleRate size rewind disp s2
    else if id = ssndID then
      if sampleRate = 0 then
        let disp1 := if chan then disp ++ [(id, sz)] else disp
        decodeLoopS fuel chan fmt d channels bitDepth sampleRate sz (rewind + sz) disp1
          (dispatchAdvance s1 sz)
      else
        decodeLoopS fuel chan fmt d channels bitDepth sampleRate sz rewind disp s1
    else
      let rewind1 := if size ≠ 0 then rewind + sz else rewind
      let disp1 := if chan then disp ++ [(id, sz)] else disp
      decodeLoopS fuel chan fmt d channels bitDepth sampleRate size rewind1 disp1
        (dispatchAdvance s1 sz)

/-- The second-version `Decode`, generalised over whether a consumer channel
is registered (`Decode` itself builds `&Decoder{r: r}`, whose channel is nil;
`NewDecoder` installs one). -/
def DecodeS (fuel : Nat) (chan : Bool) (s : ByteStream) : Option (Except DErr DecodeOutS) :=
  let h := readHeaders s
  match h.1 with
  | .error e => some (.error e)
  | .ok (_, _, fmtb) => decodeLoopS fuel chan fmtb CommState.init 0 0 0 0 0 [] h.2

/-- `Duration`: a nil receiver yields an error; otherwise the duration is
computed as `float64(NumSampleFrames) / float64(SampleRate) * float64(time.Second)`
with no guard on a zero sample rate.  The float computation is modelled over
`ℚ`; a zero sample rate makes the Go division produce a non-finite float
whose conversion to `time.Duration` is implementation-defined, modelled as
`none`.  No error is returned in either non-nil case. -/
def Duration (d : Option CommState) : Except String (Option ℚ) :=
  match d with
  | none => .error "cannot calculate the duration of a nil pointer"
  | some d =>
    .ok (if d.sampleRate = 0 then none
         else some ((d.numSampleFrames : ℚ) / (d.sampleRate : ℚ) * 1000000000))

/-- Big-endian encoding of a `uint16`. -/
def be16 (n : Nat) : List Nat := [n / 256 % 256, n % 256]

/-- Big-endian encoding of a `uint32`. -/
def be32 (n : Nat) : List Nat := [n / 16777216 % 256, n / 65536 % 256, n / 256 % 256, n % 256]

/-- A serialised chunk: 4-byte id, big-endian declared size, payload. -/
def encChunk (id payload : List Nat) : List Nat := id ++ be32 payload.length ++ payload

/-- A serialised chunk sequence. -/
def encChunks (cs : List (List Nat × List Nat)) : List Nat :=
  cs.foldr (fun c acc => encChunk c.1 c.2 ++ acc) []

/-- The COMM chunk payload for an AIFF file: channels, frame count, sample
size, 10-byte sample rate. -/
def commBody (ch fr ss : Nat) (rate : List Nat) : List Nat :=
  be16 ch ++ be32 fr ++ be16 ss ++ rate

/-- A whole AIFF file: "FORM" marker, declared size, "AIFF" marker, chunks. -/
def aiffFile (chunks : List Nat) : List Nat :=
  formID ++ be32 (chunks.length + 4) ++ aiffID ++ chunks

theorem remaining_length (s : ByteStream) : s.remaining.length = s.data.length - s.pos := by
  simp [ByteStream.remaining]

theorem readFull_ok (s : ByteStream) (xs rest : List Nat) (n : Nat)
    (h : s.remaining = xs ++ rest) (hn : xs.length = n) :
    readFull s n = (.ok xs, ⟨s.data, s.pos + n⟩) := by
  have hr := remaining_length s
  rw [h] at hr
  simp at hr
  unfold readFull
  rw [if_pos (by omega)]
  have ht : (s.data.drop s.pos).take n = xs := by
    show s.remaining.take n = xs
    rw [h, List.take_left' hn]
  rw [ht]

theorem remaining_after (s : ByteStream) (xs rest : List Nat) (n : Nat)
    (h : s.remaining = xs ++ rest) (hn : xs.length = n) :
    (⟨s.data, s.pos + n⟩ : ByteStream).remaining = rest := by
  show s.data.drop (s.pos + n) = rest
  rw [← List.drop_drop]
  show s.remaining.drop n = rest
  rw [h, List.drop_left' hn]

theorem readFull_eof (s : ByteStream) (n : Nat) (h : s.remaining = []) (hn : 0 < n) :
    readFull s n = (.error .eof, s) := by
  have hr := remaining_length s
  rw [h] at hr
  simp at hr
  unfold readFull
  rw [if_neg (by omega), if_pos (by omega)]

theorem readFull_short (s : ByteStream) (n : Nat) (h : s.remaining.length < n)
    (h0 : s.remaining ≠ []) :
    readFull s n = (.error .unexpectedEOF, ⟨s.data, s.data.length⟩) := by
  have hr := remaining_length s
  have h2 : 0 < s.remaining.length := List.length_pos.mpr h0
  unfold readFull
  rw [if_neg (by omega), if_neg (by omega)]

theorem jumpTo_ok (s : ByteStream) (xs rest : List Nat) (n : Nat)
    (h : s.remaining = xs ++ rest) (hn : xs.length = n) :
    jumpTo s n = (none, ⟨s.data, s.pos + n⟩) := by
  have hr := remaining_length s
  rw [h] at hr
  simp at hr
  unfold jumpTo
  rw [if_pos (by omega)]

theorem iDnSize_ok (s : ByteStream) (idb szb rest : List Nat)
    (h : s.remaining = idb ++ szb ++ rest) (h4 : idb.length = 4) (h8 : szb.length = 4) :
    iDnSize s = ((idb, u32be szb, none), ⟨s.data, s.pos + 8⟩) := by
  have h' : s.remaining = idb ++ (szb ++ rest) := by rw [h, List.append_assoc]
  unfold iDnSize
  rw [readFull_ok s idb (szb ++ rest) 4 h' h4]
  simp only []
  rw [readFull_ok ⟨s.data, s.pos + 4⟩ szb rest 4 (remaining_after s idb (szb ++ rest) 4 h' h4) h8]

theorem iDnSize_eof (s : ByteStream) (h : s.remaining = []) :
    iDnSize s = (([0, 0, 0, 0], 0, some .eof), s) := by
  unfold iDnSize
  rw [readFull_eof s 4 h (by omega)]

/-- C3: for every 10-byte input, `IeeeFloatToInt` implements exactly the
documented case policy in order (byte 0 at most 0x3F gives 1; byte 0 above
0x40 gives 67108864; byte 0 equal to 0x40 with byte 1 above 0x1C gives
800000000; otherwise the mantissa-shift formula), and the bytes
`0x40 0x0E 0xAC 0x44 0x00 ...` decode to 44100. -/
theorem c3_ieee_policy :
    (∀ b0 b1 b2 b3 b4 b5 b6 b7 b8 b9 : Nat,
      b2 < 256 → b3 < 256 → b4 < 256 → b5 < 256 →
      IeeeFloatToInt [b0, b1, b2, b3, b4, b5, b6, b7, b8, b9] =
        ieeeSpecPolicy b0 b1 b2 b3 b4 b5) ∧
    IeeeFloatToInt [64, 14, 172, 68, 0, 0, 0, 0, 0, 0] = 44100 := by
  constructor
  · intro b0 b1 b2 b3 b4 b5 _ _ _ _ h2 h3 h4 h5
    show ieeeCore b0 b1 b2 b3 b4 b5 = _
    exact ieeeCore_eq_policy b0 b1 b2 b3 b4 b5 h2 h3 h4 h5
  · decide

/-- Witness for C3 at the CD-rate bytes. -/
theorem c3_witness :
    IeeeFloatToInt [64, 14, 172, 68, 0, 0, 0, 0, 0, 0] = ieeeSpecPolicy 64 14 172 68 0 0 :=
  c3_ieee_policy.1 64 14 172 68 0 0 0 0 0 0 (by decide) (by decide) (by decide) (by decide)

/-- C4: the negative-magnitude test of `IeeeFloatToInt` is the equality
`(b[0] & 0x80) == 1`, which no input satisfies, so the `return 0` sign branch
is dead: on every 10-byte input the function computes the sign-free body and
never returns 0 through that branch. -/
theorem c4_sign_branch_unreachable :
    (∀ b0 : Nat, negTest b0 = false) ∧
    (∀ b0 b1 b2 b3 b4 b5 b6 b7 b8 b9 : Nat,
      IeeeFloatToInt [b0, b1, b2, b3, b4, b5, b6, b7, b8, b9] =
        ieeeCoreNoSign b0 b1 b2 b3 b4 b5) := by
  refine ⟨negTest_false, ?_⟩
  intro b0 b1 b2 b3 b4 b5 _ _ _ _
  show ieeeCore b0 b1 b2 b3 b4 b5 = _
  unfold ieeeCore ieeeCoreNoSign
  rw [negTest_false, if_neg (by simp)]

/-- C9: `iDnSize` never reports a failed size read (the source compares
`err != err`): a stream that ends immediately after a 4-byte chunk id yields
that id, block size 0 and no error, with the id's 4 bytes consumed. -/
theorem c9_idnsize_swallows (data idb : List Nat) (pos : Nat)
    (h : data.drop pos = idb) (h4 : idb.length = 4) :
    iDnSize ⟨data, pos⟩ = ((idb, 0, none), ⟨data, pos + 4⟩) := by
  have h' : ByteStream.remaining ⟨data, pos⟩ = idb ++ [] := by
    show data.drop pos = idb ++ []
    rw [h, List.append_nil]
  unfold iDnSize
  rw [readFull_ok ⟨data, pos⟩ idb [] 4 h' h4]
  simp only []
  rw [readFull_eof ⟨data, pos + 4⟩ 4 (remaining_after ⟨data, pos⟩ idb [] 4 h' h4) (by omega)]

/-- Witness for C9: a stream holding exactly "SSND" after the read position. -/
theorem c9_witness :
    iDnSize ⟨[1, 2, 3, 4, 5, 6, 7, 8, 83, 83, 78, 68], 8⟩ =
      (([83, 83, 78, 68], 0, none), ⟨[1, 2, 3, 4, 5, 6, 7, 8, 83, 83, 78, 68], 12⟩) :=
  c9_idnsize_swallows [1, 2, 3, 4, 5, 6, 7, 8, 83, 83, 78, 68] [83, 83, 78, 68] 8
    (by decide) (by decide)

/-- C10: `IeeeFloatToInt` returns 0 through the mantissa path: byte 0 equal
to 0x40, byte 1 at most 0x1C, bytes 2-4 zero and byte 5 below 2 compose a
zero mantissa; a well-formed AIFF stream whose COMM chunk carries such a
sample-rate field decodes to a clip whose sample rate is 0, the same value
as when no COMM chunk was parsed at all. -/
theorem c10_zero_rate :
    (∀ b1 b5 b6 b7 b8 b9 : Nat, b1 ≤ 28 → b5 ≤ 1 →
      IeeeFloatToInt [64, b1, 0, 0, 0, b5, b6, b7, b8, b9] = 0) ∧
    Decode 10 ⟨aiffFile (encChunk commID (commBody 2 4 16 [64, 14, 0, 0, 0, 0, 0, 0, 0, 0])), 0⟩ =
      some (.ok ⟨2, 16, 0, 0, [],
        ⟨aiffFile (encChunk commID (commBody 2 4 16 [64, 14, 0, 0, 0, 0, 0, 0, 0, 0])), 38⟩⟩) := by
  constructor
  · intro b1 b5 _ _ _ _ hb1 hb5
    show ieeeCore 64 b1 0 0 0 b5 = 0
    unfold ieeeCore
    rw [negTest_false]
    have hb5' : b5 >>> 1 = 0 := by
      rw [Nat.shiftRight_eq_div_pow]
      omega
    simp [hb5', shiftAmt_eq b1 hb1, hb1]
  · rfl

/-- Witness for C10's universal part at the bytes `0x40 0x0E 0x00 ...`. -/
theorem c10_witness : IeeeFloatToInt [64, 14, 0, 0, 0, 0, 0, 0, 0, 0] = 0 :=
  c10_zero_rate.1 14 0 0 0 0 0 (by decide) (by decide)

/-- C8: `Duration` rejects only a nil decoder.  With a sample rate of 0 (COMM
not yet parsed) it performs the floating-point division with no guard and
returns a nil error together with a non-finite value (modelled `none`) — not
the defined error or sentinel the claim requires; with a nonzero rate the
value is frames divided by rate, in seconds. -/
theorem c8_duration_no_guard :
    Duration none = .error "cannot calculate the duration of a nil pointer" ∧
    Duration (some CommState.init) = .ok none ∧
    Duration (some { CommState.init with numSampleFrames := 88200, sampleRate := 44100 }) =
      .ok (some 2000000000) := by
  refine ⟨rfl, rfl, ?_⟩
  simp only [Duration, CommState.init]
  norm_num

theorem u32be_be32 (n : Nat) (h : n < 4294967296) : u32be (be32 n) = n := by
  simp [u32be, be32]
  omega

theorem u16be_be16 (n : Nat) (h : n < 65536) : u16be (be16 n) = n := by
  simp [u16be, be16]
  omega

theorem encChunk_length (id p : List Nat) (h4 : id.length = 4) :
    (encChunk id p).length = 8 + p.length := by
  simp [encChunk, be32, h4]
  omega

theorem encChunks_cons (c : List Nat × List Nat) (cs : List (List Nat × List Nat)) :
    encChunks (c :: cs) = encChunk c.1 c.2 ++ encChunks cs := rfl

theorem remaining_at (data A B : List Nat) (p : Nat) (hd : data = A ++ B) (hp : A.length = p) :
    (⟨data, p⟩ : ByteStream).remaining = B := by
  show data.drop p = B
  rw [hd, List.drop_left' hp]

theorem decodeLoop_eof (fuel : Nat) (fmt : List Nat) (d : CommState)
    (channels bitDepth sampleRate size rewind : Nat) (seeks : List (Nat × Nat))
    (s : ByteStream) (h : s.remaining = []) :
    decodeLoop (fuel + 1) fmt d channels bitDepth sampleRate size rewind seeks s =
      some (.ok ⟨channels, bitDepth, sampleRate, size, seeks, s⟩) := by
  rw [decodeLoop]
  rw [iDnSize_eof s h]
  simp

theorem decodeLoop_step_other (fuel : Nat) (fmt : List Nat) (d : CommState)
    (channels bitDepth sampleRate size rewind : Nat) (seeks : List (Nat × Nat))
    (s : ByteStream) (id payload rest : List Nat)
    (h : s.remaining = encChunk id payload ++ rest)
    (hid4 : id.length = 4) (hc : id ≠ commID) (hs : id ≠ ssndID)
    (hlen : payload.length < 4294967296) :
    decodeLoop (fuel + 1) fmt d channels bitDepth sampleRate size rewind seeks s =
      decodeLoop fuel fmt d channels bitDepth sampleRate size
        (if size ≠ 0 then rewind + payload.length else rewind) seeks
        ⟨s.data, s.pos + 8 + payload.length⟩ := by
  have h' : s.remaining = id ++ be32 payload.length ++ (payload ++ rest) := by
    rw [h]
    simp [encChunk, List.append_assoc]
  have h8 : (⟨s.data, s.pos + 8⟩ : ByteStream).remaining = payload ++ rest :=
    remaining_after s (id ++ be32 payload.length) (payload ++ rest) 8 h'
      (by simp [be32, hid4])
  rw [decodeLoop]
  rw [iDnSize_ok s id (be32 payload.length) (payload ++ rest) h' hid4 (by simp [be32])]
  simp only [Option.isSome_none, Bool.false_eq_true, if_false, if_neg hc, if_neg hs,
    u32be_be32 payload.length hlen]
  rw [jumpTo_ok ⟨s.data, s.pos + 8⟩ payload rest payload.length h8 rfl]
  simp

theorem decodeLoop_step_ssnd_seen (fuel : Nat) (fmt : List Nat) (d : CommState)
    (channels bitDepth sampleRate size rewind : Nat) (seeks : List (Nat × Nat))
    (s : ByteStream) (payload rest : List Nat)
    (h : s.remaining = encChunk ssndID payload ++ rest)
    (hlen : payload.length < 4294967296) (hsr : sampleRate ≠ 0) :
    decodeLoop (fuel + 1) fmt d channels bitDepth sampleRate size rewind seeks s =
      decodeLoop fuel fmt d channels bitDepth sampleRate payload.length rewind seeks
        ⟨s.data, s.pos + 8⟩ := by
  have h' : s.remaining = ssndID ++ be32 payload.length ++ (payload ++ rest) := by
    rw [h]
    simp [encChunk, List.append_assoc]
  rw [decodeLoop]
  rw [iDnSize_ok s ssndID (be32 payload.length) (payload ++ rest) h' rfl rfl]
  have hne : ¬ (ssndID = commID) := by decide
  simp only [Option.isSome_none, Bool.false_eq_true, if_false,
    u32be_be32 payload.length hlen]
  simp [hne, hsr]

theorem decodeLoop_step_ssnd_skip (fuel : Nat) (fmt : List Nat) (d : CommState)
    (channels bitDepth size rewind : Nat) (seeks : List (Nat × Nat))
    (s : ByteStream) (payload rest : List Nat)
    (h : s.remaining = encChunk ssndID payload ++ rest)
    (hlen : payload.length < 4294967296) :
    decodeLoop (fuel + 1) fmt d channels bitDepth 0 size rewind seeks s =
      decodeLoop fuel fmt d channels bitDepth 0 payload.length (rewind + payload.length) seeks
        ⟨s.data, s.pos + 8 + payload.length⟩ := by
  have h' : s.remaining = ssndID ++ be32 payload.length ++ (payload ++ rest) := by
    rw [h]
    simp [encChunk, List.append_assoc]
  have h8 : (⟨s.data, s.pos + 8⟩ : ByteStream).remaining = payload ++ rest :=
    remaining_after s (ssndID ++ be32 payload.length) (payload ++ rest) 8 h'
      (by simp [be32, ssndID])
  rw [decodeLoop]
  rw [iDnSize_ok s ssndID (be32 payload.length) (payload ++ rest) h' rfl rfl]
  have hne : ¬ (ssndID = commID) := by decide
  simp only [Option.isSome_none, Bool.false_eq_true, if_false,
    u32be_be32 payload.length hlen]
  rw [jumpTo_ok ⟨s.data, s.pos + 8⟩ payload rest payload.length h8 rfl]
  simp [hne]

set_option maxHeartbeats 2000000 in
theorem parseCommChunk_aiff (sz : Nat) (d : CommState) (s : ByteStream)
    (ch fr ss : Nat) (rate rest : List Nat)
    (h : s.remaining = commBody ch fr ss rate ++ rest)
    (hch : ch < 65536) (hfr : fr < 4294967296) (hss : ss < 65536)
    (hrate : rate.length = 10) :
    parseCommChunk aiffID sz d s =
      (none, { d with
               commSize := sz
               numChans := ch
               numSampleFrames := fr
               sampleSize := ss
               sampleRate := IeeeFloatToInt rate },
       ⟨s.data, s.pos + 18⟩) := by
  have h1 : s.remaining = be16 ch ++ (be32 fr ++ (be16 ss ++ (rate ++ rest))) := by
    rw [h]
    simp [commBody, List.append_assoc]
  have h2 : (⟨s.data, s.pos + 2⟩ : ByteStream).remaining = be32 fr ++ (be16 ss ++ (rate ++ rest)) :=
    remaining_after s (be16 ch) _ 2 h1 (by simp [be16])
  have h3 : (⟨s.data, s.pos + 2 + 4⟩ : ByteStream).remaining = be16 ss ++ (rate ++ rest) :=
    remaining_after ⟨s.data, s.pos + 2⟩ (be32 fr) _ 4 h2 (by simp [be32])
  have h4 : (⟨s.data, s.pos + 2 + 4 + 2⟩ : ByteStream).remaining = rate ++ rest :=
    remaining_after ⟨s.data, s.pos + 2 + 4⟩ (be16 ss) _ 2 h3 (by simp [be16])
  unfold parseCommChunk
  rw [readFull_ok s (be16 ch) _ 2 h1 (by simp [be16])]
  simp only []
  rw [readFull_ok ⟨s.data, s.pos + 2⟩ (be32 fr) _ 4 h2 (by simp [be32])]
  simp only []
  rw [readFull_ok ⟨s.data, s.pos + 2 + 4⟩ (be16 ss) _ 2 h3 (by simp [be16])]
  simp only []
  rw [readFull_ok ⟨s.data, s.pos + 2 + 4 + 2⟩ rate rest 10 h4 hrate]
  simp only []
  rw [if_neg (show ¬ (aiffID = aifcID) by decide)]
  simp only [u16be_be16 ch hch, u16be_be16 ss hss, u32be_be32 fr hfr]

theorem decodeLoop_step_comm (fuel : Nat) (d : CommState)
    (channels bitDepth sampleRate size : Nat) (seeks : List (Nat × Nat))
    (s : ByteStream) (ch fr ss : Nat) (rate rest : List Nat)
    (h : s.remaining = encChunk commID (commBody ch fr ss rate) ++ rest)
    (hch : ch < 65536) (hfr : fr < 4294967296) (hss : ss < 65536)
    (hrate : rate.length = 10) :
    decodeLoop (fuel + 1) aiffID d channels bitDepth sampleRate size 0 seeks s =
      decodeLoop fuel aiffID
        { d with
          commSize := 18
          numChans := ch
          numSampleFrames := fr
          sampleSize := ss
          sampleRate := IeeeFloatToInt rate }
        ch ss (IeeeFloatToInt rate) size 0 seeks ⟨s.data, s.pos + 26⟩ := by
  have hbl : (commBody ch fr ss rate).length = 18 := by
    simp [commBody, be16, be32, hrate]
  have h' : s.remaining = commID ++ be32 (commBody ch fr ss rate).length ++
      (commBody ch fr ss rate ++ rest) := by
    rw [h]
    simp [encChunk, List.append_assoc]
  have h8 : (⟨s.data, s.pos + 8⟩ : ByteStream).remaining = commBody ch fr ss rate ++ rest :=
    remaining_after s (commID ++ be32 (commBody ch fr ss rate).length) _ 8 h'
      (by simp [be32, commID])
  rw [decodeLoop]
  rw [iDnSize_ok s commID (be32 (commBody ch fr ss rate).length) _ h' rfl rfl]
  simp only [Option.isSome_none, Bool.false_eq_true, if_false,
    u32be_be32 (commBody ch fr ss rate).length (by rw [hbl]; omega)]
  rw [parseCommChunk_aiff (commBody ch fr ss rate).length d ⟨s.data, s.pos + 8⟩
    ch fr ss rate rest h8 hch hfr hss hrate]
  simp [hbl]

theorem decodeLoop_step_comm_rewind (fuel : Nat) (d : CommState)
    (channels bitDepth sampleRate size rewind : Nat) (seeks : List (Nat × Nat))
    (s : ByteStream) (ch fr ss : Nat) (rate rest : List Nat)
    (h : s.remaining = encChunk commID (commBody ch fr ss rate) ++ rest)
    (hch : ch < 65536) (hfr : fr < 4294967296) (hss : ss < 65536)
    (hrate : rate.length = 10) (hrw : 0 < rewind) :
    decodeLoop (fuel + 1) aiffID d channels bitDepth sampleRate size rewind seeks s =
      decodeLoop fuel aiffID
        { d with
          commSize := 18
          numChans := ch
          numSampleFrames := fr
          sampleSize := ss
          sampleRate := IeeeFloatToInt rate }
        ch ss (IeeeFloatToInt rate) size rewind
        (seeks ++ [(rewind, s.pos + 26 - rewind)]) ⟨s.data, s.pos + 26 - rewind⟩ := by
  have hbl : (commBody ch fr ss rate).length = 18 := by
    simp [commBody, be16, be32, hrate]
  have h' : s.remaining = commID ++ be32 (commBody ch fr ss rate).length ++
      (commBody ch fr ss rate ++ rest) := by
    rw [h]
    simp [encChunk, List.append_assoc]
  have h8 : (⟨s.data, s.pos + 8⟩ : ByteStream).remaining = commBody ch fr ss rate ++ rest :=
    remaining_after s (commID ++ be32 (commBody ch fr ss rate).length) _ 8 h'
      (by simp [be32, commID])
  rw [decodeLoop]
  rw [iDnSize_ok s commID (be32 (commBody ch fr ss rate).length) _ h' rfl rfl]
  simp only [Option.isSome_none, Bool.false_eq_true, if_false,
    u32be_be32 (commBody ch fr ss rate).length (by rw [hbl]; omega)]
  rw [parseCommChunk_aiff (commBody ch fr ss rate).length d ⟨s.data, s.pos + 8⟩
    ch fr ss rate rest h8 hch hfr hss hrate]
  simp [hbl, hrw]

theorem readHeaders_badForm (s : ByteStream) (idb rest : List Nat)
    (h : s.remaining = idb ++ rest) (h4 : idb.length = 4) (hne : idb ≠ formID) :
    readHeaders s = (.error (.fmtNotSupported idb), ⟨s.data, s.pos + 4⟩) := by
  unfold readHeaders
  rw [readFull_ok s idb rest 4 h h4]
  simp only []
  rw [if_pos hne]

theorem readHeaders_badFormat (s : ByteStream) (szb fmtb rest : List Nat)
    (h : s.remaining = formID ++ szb ++ fmtb ++ rest) (hsz : szb.length = 4)
    (hfmt4 : fmtb.length = 4) (hne1 : fmtb ≠ aiffID) (hne2 : fmtb ≠ aifcID) :
    readHeaders s = (.error (.fmtNotSupported fmtb), ⟨s.data, s.pos + 12⟩) := by
  have h1 : s.remaining = formID ++ (szb ++ (fmtb ++ rest)) := by
    rw [h]
    simp [List.append_assoc]
  have h2 : (⟨s.data, s.pos + 4⟩ : ByteStream).remaining = szb ++ (fmtb ++ rest) :=
    remaining_after s formID _ 4 h1 rfl
  have h3 : (⟨s.data, s.pos + 4 + 4⟩ : ByteStream).remaining = fmtb ++ rest :=
    remaining_after ⟨s.data, s.pos + 4⟩ szb _ 4 h2 hsz
  unfold readHeaders
  rw [readFull_ok s formID _ 4 h1 rfl]
  simp only []
  rw [if_neg (by simp)]
  rw [readFull_ok ⟨s.data, s.pos + 4⟩ szb _ 4 h2 hsz]
  simp only []
  rw [readFull_ok ⟨s.data, s.pos + 4 + 4⟩ fmtb rest 4 h3 hfmt4]
  simp only []
  rw [if_pos ⟨hne1, hne2⟩]

theorem readHeaders_ok (s : ByteStream) (szb fmtb rest : List Nat)
    (h : s.remaining = formID ++ szb ++ fmtb ++ rest) (hsz : szb.length = 4)
    (hfmt4 : fmtb.length = 4) (hfmt : fmtb = aiffID ∨ fmtb = aifcID) :
    readHeaders s = (.ok (formID, u32be szb, fmtb), ⟨s.data, s.pos + 12⟩) := by
  have h1 : s.remaining = formID ++ (szb ++ (fmtb ++ rest)) := by
    rw [h]
    simp [List.append_assoc]
  have h2 : (⟨s.data, s.pos + 4⟩ : ByteStream).remaining = szb ++ (fmtb ++ rest) :=
    remaining_after s formID _ 4 h1 rfl
  have h3 : (⟨s.data, s.pos + 4 + 4⟩ : ByteStream).remaining = fmtb ++ rest :=
    remaining_after ⟨s.data, s.pos + 4⟩ szb _ 4 h2 hsz
  unfold readHeaders
  rw [readFull_ok s formID _ 4 h1 rfl]
  simp only []
  rw [if_neg (by simp)]
  rw [readFull_ok ⟨s.data, s.pos + 4⟩ szb _ 4 h2 hsz]
  simp only []
  rw [readFull_ok ⟨s.data, s.pos + 4 + 4⟩ fmtb rest 4 h3 hfmt4]
  simp only []
  rw [if_neg (by rcases hfmt with hf | hf <;> simp [hf])]

theorem decodeLoop_skipAll (cs : List (List Nat × List Nat)) (fuel : Nat) (fmt : List Nat)
    (d : CommState) (channels bitDepth sampleRate rewind : Nat) (seeks : List (Nat × Nat))
    (s : ByteStream) (rest : List Nat)
    (h : s.remaining = encChunks cs ++ rest)
    (hcs : ∀ c ∈ cs, c.1.length = 4 ∧ c.1 ≠ commID ∧ c.1 ≠ ssndID ∧ c.2.length < 4294967296) :
    decodeLoop (cs.length + fuel) fmt d channels bitDepth sampleRate 0 rewind seeks s =
      decodeLoop fuel fmt d channels bitDepth sampleRate 0 rewind seeks
        ⟨s.data, s.pos + (encChunks cs).length⟩ := by
  induction cs generalizing s with
  | nil =>
    simp [encChunks]
  | cons c cs ih =>
    have hc := hcs c (by simp)
    have hrest : s.remaining = encChunk c.1 c.2 ++ (encChunks cs ++ rest) := by
      rw [h, encChunks_cons, List.append_assoc]
    have hfuel : (c :: cs).length + fuel = cs.length + fuel + 1 := by
      simp
      omega
    rw [hfuel]
    rw [decodeLoop_step_other (cs.length + fuel) fmt d channels bitDepth sampleRate 0 rewind
      seeks s c.1 c.2 (encChunks cs ++ rest) hrest hc.1 hc.2.1 hc.2.2.1 hc.2.2.2]
    rw [if_neg (by simp)]
    have hrem : (⟨s.data, s.pos + (8 + c.2.length)⟩ : ByteStream).remaining =
        encChunks cs ++ rest :=
      remaining_after s (encChunk c.1 c.2) (encChunks cs ++ rest) (8 + c.2.length) hrest
        (encChunk_length c.1 c.2 hc.1)
    have e1 : s.pos + 8 + c.2.length = s.pos + (8 + c.2.length) := by omega
    rw [e1]
    rw [ih ⟨s.data, s.pos + (8 + c.2.length)⟩ hrem (fun c hm => hcs c (by simp [hm]))]
    have e2 : s.pos + (8 + c.2.length) + (encChunks cs).length =
        s.pos + (encChunks (c :: cs)).length := by
      rw [encChunks_cons]
      simp [encChunk_length c.1 c.2 hc.1]
      omega
    rw [e2]

/-- An AIFF file whose chunk sequence is `pre`, then a COMM chunk with the
given fields, then `mid`, then an SSND chunk with the given payload. -/
def commFirstFile (pre mid : List (List Nat × List Nat)) (ch fr ss : Nat)
    (rate ssndPayload : List Nat) : List Nat :=
  aiffFile (encChunks pre ++ encChunk commID (commBody ch fr ss rate) ++
    encChunks mid ++ encChunk ssndID ssndPayload)

theorem decodeLoop_commFirst (pre mid : List (List Nat × List Nat)) (ch fr ss : Nat)
    (rate : List Nat) (d : CommState) (channels bitDepth : Nat) (seeks : List (Nat × Nat))
    (s : ByteStream)
    (h : s.remaining = encChunks pre ++ (encChunk commID (commBody ch fr ss rate) ++
      (encChunks mid ++ encChunk ssndID [])))
    (hpre : ∀ c ∈ pre, c.1.length = 4 ∧ c.1 ≠ commID ∧ c.1 ≠ ssndID ∧ c.2.length < 4294967296)
    (hmid : ∀ c ∈ mid, c.1.length = 4 ∧ c.1 ≠ commID ∧ c.1 ≠ ssndID ∧ c.2.length < 4294967296)
    (hch : ch < 65536) (hfr : fr < 4294967296) (hss : ss < 65536)
    (hrate : rate.length = 10) (hsr : IeeeFloatToInt rate ≠ 0) :
    decodeLoop (pre.length + (mid.length + 3)) aiffID d channels bitDepth 0 0 0 seeks s =
      some (.ok ⟨ch, ss, IeeeFloatToInt rate, 0, seeks,
        ⟨s.data, s.pos + ((encChunks pre).length + (26 + ((encChunks mid).length + 8)))⟩⟩) := by
  rw [decodeLoop_skipAll pre (mid.length + 3) aiffID d channels bitDepth 0 0 seeks s _ h hpre]
  have h1 : (⟨s.data, s.pos + (encChunks pre).length⟩ : ByteStream).remaining =
      encChunk commID (commBody ch fr ss rate) ++ (encChunks mid ++ encChunk ssndID []) :=
    remaining_after s (encChunks pre) _ (encChunks pre).length h rfl
  have hf1 : mid.length + 3 = (mid.length + 2) + 1 := by omega
  rw [hf1]
  rw [decodeLoop_step_comm (mid.length + 2) d channels bitDepth 0 0 seeks
    ⟨s.data, s.pos + (encChunks pre).length⟩ ch fr ss rate _ h1 hch hfr hss hrate]
  have h2 : (⟨s.data, s.pos + (encChunks pre).length + 26⟩ : ByteStream).remaining =
      encChunks mid ++ encChunk ssndID [] := by
    have := remaining_after ⟨s.data, s.pos + (encChunks pre).length⟩
      (encChunk commID (commBody ch fr ss rate)) (encChunks mid ++ encChunk ssndID []) 26 h1
      (by simp [encChunk_length commID _ rfl, commBody, be16, be32, hrate])
    exact this
  have hf2 : mid.length + 2 = mid.length + (1 + 1) := by omega
  rw [hf2]
  rw [decodeLoop_skipAll mid (1 + 1) aiffID _ ch ss (IeeeFloatToInt rate) 0 seeks
    ⟨s.data, s.pos + (encChunks pre).length + 26⟩ _ h2 hmid]
  have h3 : (⟨s.data, s.pos + (encChunks pre).length + 26 + (encChunks mid).length⟩ :
      ByteStream).remaining = encChunk ssndID [] ++ [] := by
    have := remaining_after ⟨s.data, s.pos + (encChunks pre).length + 26⟩ (encChunks mid)
      (encChunk ssndID []) (encChunks mid).length h2 rfl
    rw [List.append_nil]
    exact this
  rw [decodeLoop_step_ssnd_seen 1 aiffID _ ch ss (IeeeFloatToInt rate) 0 0 seeks
    ⟨s.data, s.pos + (encChunks pre).length + 26 + (encChunks mid).length⟩ [] [] h3
    (by simp) hsr]
  have h4 : (⟨s.data, s.pos + (encChunks pre).length + 26 + (encChunks mid).length + 8⟩ :
      ByteStream).remaining = [] := by
    have := remaining_after ⟨s.data,
      s.pos + (encChunks pre).length + 26 + (encChunks mid).length⟩
      (encChunk ssndID []) [] 8 h3 (by simp [encChunk_length ssndID [] rfl])
    exact this
  have e : s.pos + (encChunks pre).length + 26 + (encChunks mid).length + 8 =
      s.pos + ((encChunks pre).length + (26 + ((encChunks mid).length + 8))) := by omega
  have heq := decodeLoop_eof 0 aiffID
    { d with
      commSize := 18
      numChans := ch
      numSampleFrames := fr
      sampleSize := ss
      sampleRate := IeeeFloatToInt rate }
    ch ss (IeeeFloatToInt rate) 0 0 seeks
    ⟨s.data, s.pos + (encChunks pre).length + 26 + (encChunks mid).length + 8⟩ h4
  have h5 : (some (.ok ⟨ch, ss, IeeeFloatToInt rate, 0, seeks,
      ⟨s.data, s.pos + (encChunks pre).length + 26 + (encChunks mid).length + 8⟩⟩) :
      Option (Except DErr DecodeOut)) =
      some (.ok ⟨ch, ss, IeeeFloatToInt rate, 0, seeks,
      ⟨s.data, s.pos + ((encChunks pre).length + (26 + ((encChunks mid).length + 8)))⟩⟩) := by
    rw [e]
  exact heq.trans h5

/-- C1 (amended): for a well-formed AIFF stream whose chunks are any non-COMM,
non-SSND chunks, then COMM, then more such chunks, then a final SSND chunk of
declared size 0, `Decode` returns a clip whose channel count, bit depth and
sample rate equal the COMM values, whose size equals SSND's declared size,
with the stream left at the start of the SSND payload (here the end of the
file).  The original claim's further assertion — that the traversal loop
stops at the SSND chunk — fails: the `break` exits only the `switch`, so the
loop runs on into a nonempty SSND payload (see the counterexample). -/
theorem c1_decode_comm_first (pre mid : List (List Nat × List Nat)) (ch fr ss : Nat)
    (rate : List Nat)
    (hpre : ∀ c ∈ pre, c.1.length = 4 ∧ c.1 ≠ commID ∧ c.1 ≠ ssndID ∧ c.2.length < 4294967296)
    (hmid : ∀ c ∈ mid, c.1.length = 4 ∧ c.1 ≠ commID ∧ c.1 ≠ ssndID ∧ c.2.length < 4294967296)
    (hch : ch < 65536) (hfr : fr < 4294967296) (hss : ss < 65536)
    (hrate : rate.length = 10) (hsr : IeeeFloatToInt rate ≠ 0) :
    Decode (pre.length + (mid.length + 3)) ⟨commFirstFile pre mid ch fr ss rate [], 0⟩ =
      some (.ok ⟨ch, ss, IeeeFloatToInt rate, 0, [],
        ⟨commFirstFile pre mid ch fr ss rate [],
         12 + ((encChunks pre).length + (26 + ((encChunks mid).length + 8)))⟩⟩) ∧
    (commFirstFile pre mid ch fr ss rate []).length =
      12 + ((encChunks pre).length + (26 + ((encChunks mid).length + 8))) := by
  have hchunks : (encChunks pre ++ encChunk commID (commBody ch fr ss rate) ++
      encChunks mid ++ encChunk ssndID []).length =
      (encChunks pre).length + (26 + ((encChunks mid).length + 8)) := by
    simp [encChunk_length commID _ rfl, encChunk_length ssndID _ rfl, commBody, be16, be32,
      hrate]
  have hlen2 : (commFirstFile pre mid ch fr ss rate []).length =
      12 + ((encChunks pre).length + (26 + ((encChunks mid).length + 8))) := by
    simp [commFirstFile, aiffFile, formID, aiffID, be32, encChunk_length commID _ rfl,
      encChunk_length ssndID _ rfl, commBody, be16, hrate]
    omega
  refine ⟨?_, hlen2⟩
  have hrem0 : (⟨commFirstFile pre mid ch fr ss rate [], 0⟩ : ByteStream).remaining =
      formID ++ be32 ((encChunks pre ++ encChunk commID (commBody ch fr ss rate) ++
        encChunks mid ++ encChunk ssndID []).length + 4) ++ aiffID ++
      (encChunks pre ++ encChunk commID (commBody ch fr ss rate) ++
        encChunks mid ++ encChunk ssndID []) := by
    show (commFirstFile pre mid ch fr ss rate []).drop 0 = _
    simp [commFirstFile, aiffFile]
  unfold Decode
  rw [readHeaders_ok ⟨commFirstFile pre mid ch fr ss rate [], 0⟩ _ _ _ hrem0 (by simp [be32])
    rfl (Or.inl rfl)]
  simp only []
  have hrem12 : (⟨commFirstFile pre mid ch fr ss rate [], 0 + 12⟩ : ByteStream).remaining =
      encChunks pre ++ (encChunk commID (commBody ch fr ss rate) ++
        (encChunks mid ++ encChunk ssndID [])) := by
    have := remaining_after ⟨commFirstFile pre mid ch fr ss rate [], 0⟩
      (formID ++ be32 ((encChunks pre ++ encChunk commID (commBody ch fr ss rate) ++
        encChunks mid ++ encChunk ssndID []).length + 4) ++ aiffID)
      (encChunks pre ++ encChunk commID (commBody ch fr ss rate) ++
        encChunks mid ++ encChunk ssndID []) 12
      (by rw [hrem0]) (by simp [formID, aiffID, be32])
    rw [this]
    simp [List.append_assoc]
  rw [decodeLoop_commFirst pre mid ch fr ss rate CommState.init 0 0 []
    ⟨commFirstFile pre mid ch fr ss rate [], 0 + 12⟩ hrem12 hpre hmid hch hfr hss hrate hsr]

/-- Witness for C1 at a file with one "pre" chunk, COMM (2 ch, 4 frames,
16 bits, 44100 Hz), and a final empty SSND chunk. -/
theorem c1_witness :
    Decode (1 + (0 + 3))
        ⟨commFirstFile [([1, 2, 3, 4], [9])] [] 2 4 16 [64, 14, 172, 68, 0, 0, 0, 0, 0, 0] [], 0⟩ =
      some (.ok ⟨2, 16, IeeeFloatToInt [64, 14, 172, 68, 0, 0, 0, 0, 0, 0], 0, [],
        ⟨commFirstFile [([1, 2, 3, 4], [9])] [] 2 4 16 [64, 14, 172, 68, 0, 0, 0, 0, 0, 0] [],
         12 + ((encChunks [([1, 2, 3, 4], [9])]).length +
           (26 + ((encChunks ([] : List (List Nat × List Nat))).length + 8)))⟩⟩) ∧
    (commFirstFile [([1, 2, 3, 4], [9])] [] 2 4 16 [64, 14, 172, 68, 0, 0, 0, 0, 0, 0] []).length =
      12 + ((encChunks [([1, 2, 3, 4], [9])]).length +
        (26 + ((encChunks ([] : List (List Nat × List Nat))).length + 8))) :=
  c1_decode_comm_first [([1, 2, 3, 4], [9])] [] 2 4 16 [64, 14, 172, 68, 0, 0, 0, 0, 0, 0]
    (by decide) (by decide) (by decide) (by decide) (by decide) (by decide) (by decide)

/-- Counterexample for C1 as stated: a well-formed AIFF file with COMM before
SSND whose SSND payload holds 8 zero bytes.  `Decode` succeeds with the right
clip fields, but the final stream position is 54 — the end of the file — not
46, the start of the SSND payload: the loop did not stop at the SSND chunk
(the `break` left only the `switch`), it parsed the payload as further
chunks until end of stream. -/
theorem c1_cex :
    Decode 10 ⟨commFirstFile [] [] 2 4 16 [64, 14, 172, 68, 0, 0, 0, 0, 0, 0]
        [0, 0, 0, 0, 0, 0, 0, 0], 0⟩ =
      some (.ok ⟨2, 16, 44100, 8, [],
        ⟨commFirstFile [] [] 2 4 16 [64, 14, 172, 68, 0, 0, 0, 0, 0, 0]
          [0, 0, 0, 0, 0, 0, 0, 0], 54⟩⟩) ∧
    12 + 8 + 18 + 8 = 46 ∧ (54 : Nat) ≠ 46 :=
  ⟨rfl, rfl, by decide⟩

/-- C6: `readHeaders` reads the 12-byte header in big-endian layout.  A form
marker other than "FORM" yields a format error after consuming exactly the
4 bytes of that fixed read; a format marker that is neither "AIFF" nor
"AIFC" yields a format error after the full 12 bytes; on success exactly the
12 header bytes are consumed and the parsed marker, size and format are
returned with no other effect on the stream. -/
theorem c6_read_headers :
    (∀ (s : ByteStream) (idb rest : List Nat), s.remaining = idb ++ rest →
      idb.length = 4 → idb ≠ formID →
      readHeaders s = (.error (.fmtNotSupported idb), ⟨s.data, s.pos + 4⟩)) ∧
    (∀ (s : ByteStream) (szb fmtb rest : List Nat),
      s.remaining = formID ++ szb ++ fmtb ++ rest → szb.length = 4 → fmtb.length = 4 →
      fmtb ≠ aiffID → fmtb ≠ aifcID →
      readHeaders s = (.error (.fmtNotSupported fmtb), ⟨s.data, s.pos + 12⟩)) ∧
    (∀ (s : ByteStream) (szb fmtb rest : List Nat),
      s.remaining = formID ++ szb ++ fmtb ++ rest → szb.length = 4 → fmtb.length = 4 →
      (fmtb = aiffID ∨ fmtb = aifcID) →
      readHeaders s = (.ok (formID, u32be szb, fmtb), ⟨s.data, s.pos + 12⟩)) :=
  ⟨readHeaders_badForm, readHeaders_badFormat, readHeaders_ok⟩

/-- Witness for C6: a stream starting with "RIFF" fails after exactly 4
bytes. -/
theorem c6_witness :
    readHeaders ⟨[82, 73, 70, 70, 0, 0, 0, 0], 0⟩ =
      (.error (.fmtNotSupported [82, 73, 70, 70]), ⟨[82, 73, 70, 70, 0, 0, 0, 0], 0 + 4⟩) :=
  c6_read_headers.1 ⟨[82, 73, 70, 70, 0, 0, 0, 0], 0⟩ [82, 73, 70, 70] [0, 0, 0, 0]
    (by decide) (by decide) (by decide)

/-- C5 shows a code bug: errors inside the traversal are not surfaced.  A
well-formed header followed by a COMM chunk that is truncated after its
2-byte channel count makes `parseCommChunk` fail on the frame-count field,
but `Decode` discards that error (the call's return value is dropped) and,
because the loop's shadowed `err` also swallows chunk-header read errors, the
decode completes successfully with a partially-filled clip (channels set,
sample rate still 0).  A stream that dies mid chunk header (3 trailing
bytes) is likewise reported as success; only the plain end-of-stream case —
which the claim correctly calls a success — behaves as documented. -/
theorem c5_comm_error_swallowed :
    Decode 10 ⟨aiffFile (commID ++ be32 18 ++ [0, 1]), 0⟩ =
      some (.ok ⟨1, 0, 0, 0, [], ⟨aiffFile (commID ++ be32 18 ++ [0, 1]), 22⟩⟩) ∧
    Decode 10 ⟨aiffFile [1, 2, 3], 0⟩ =
      some (.ok ⟨0, 0, 0, 0, [], ⟨aiffFile [1, 2, 3], 15⟩⟩) ∧
    Decode 10 ⟨aiffFile [], 0⟩ =
      some (.ok ⟨0, 0, 0, 0, [], ⟨aiffFile [], 12⟩⟩) :=
  ⟨rfl, rfl, rfl⟩

/-- C2 (amended): when COMM is reached with a nonzero rewind accumulator, the
stream is repositioned backward by exactly that many bytes — but the
accumulator counts only skipped payload bytes, not the 8-byte chunk headers
nor the 26 bytes of the COMM chunk itself, so for a stream laid out
SSND-then-COMM the position after the seek is `pos + 34` (34 bytes past the
SSND header start), never `pos + 8`, the start of the SSND payload.  Order
independence therefore fails (see the counterexample). -/
theorem c2_rewind_seek :
    (∀ (fuel : Nat) (d : CommState) (channels bitDepth sampleRate size rewind : Nat)
      (seeks : List (Nat × Nat)) (s : ByteStream) (ch fr ss : Nat) (rate rest : List Nat),
      s.remaining = encChunk commID (commBody ch fr ss rate) ++ rest →
      ch < 65536 → fr < 4294967296 → ss < 65536 → rate.length = 10 → 0 < rewind →
      decodeLoop (fuel + 1) aiffID d channels bitDepth sampleRate size rewind seeks s =
        decodeLoop fuel aiffID
          { d with
            commSize := 18
            numChans := ch
            numSampleFrames := fr
            sampleSize := ss
            sampleRate := IeeeFloatToInt rate }
          ch ss (IeeeFloatToInt rate) size rewind
          (seeks ++ [(rewind, s.pos + 26 - rewind)]) ⟨s.data, s.pos + 26 - rewind⟩) ∧
    (∀ (fuel : Nat) (d : CommState) (channels bitDepth : Nat)
      (seeks : List (Nat × Nat)) (s : ByteStream) (payload : List Nat) (ch fr ss : Nat)
      (rate rest : List Nat),
      s.remaining = encChunk ssndID payload ++
        (encChunk commID (commBody ch fr ss rate) ++ rest) →
      ch < 65536 → fr < 4294967296 → ss < 65536 → rate.length = 10 →
      payload.length < 4294967296 → 0 < payload.length →
      decodeLoop (fuel + 2) aiffID d channels bitDepth 0 0 0 seeks s =
        decodeLoop fuel aiffID
          { d with
            commSize := 18
            numChans := ch
            numSampleFrames := fr
            sampleSize := ss
            sampleRate := IeeeFloatToInt rate }
          ch ss (IeeeFloatToInt rate) payload.length payload.length
          (seeks ++ [(payload.length, s.pos + 34)]) ⟨s.data, s.pos + 34⟩ ∧
      s.pos + 34 ≠ s.pos + 8) := by
  constructor
  · intro fuel d channels bitDepth sampleRate size rewind seeks s ch fr ss rate rest
      h hch hfr hss hrate hrw
    exact decodeLoop_step_comm_rewind fuel d channels bitDepth sampleRate size rewind seeks s
      ch fr ss rate rest h hch hfr hss hrate hrw
  · intro fuel d channels bitDepth seeks s payload ch fr ss rate rest
      h hch hfr hss hrate hplen hp
    refine ⟨?_, by omega⟩
    rw [show fuel + 2 = (fuel + 1) + 1 from rfl]
    rw [decodeLoop_step_ssnd_skip (fuel + 1) aiffID d channels bitDepth 0 0 seeks s payload
      (encChunk commID (commBody ch fr ss rate) ++ rest) h hplen]
    have h1 : (⟨s.data, s.pos + (8 + payload.length)⟩ : ByteStream).remaining =
        encChunk commID (commBody ch fr ss rate) ++ rest :=
      remaining_after s (encChunk ssndID payload) _ (8 + payload.length) h
        (encChunk_length ssndID payload rfl)
    have e1 : s.pos + 8 + payload.length = s.pos + (8 + payload.length) := by omega
    rw [e1]
    rw [decodeLoop_step_comm_rewind fuel d channels bitDepth 0 payload.length
      (0 + payload.length) seeks ⟨s.data, s.pos + (8 + payload.length)⟩ ch fr ss rate rest h1
      hch hfr hss hrate (by omega)]
    have e2 : s.pos + (8 + payload.length) + 26 - (0 + payload.length) = s.pos + 34 := by
      omega
    have e3 : 0 + payload.length = payload.length := by omega
    rw [e2, e3]

/-- Witness for C2's second part: the SSND(10 bytes)-then-COMM stream; after
the two steps the loop holds rewind 10 and has sought to byte 46 (position
12 + 34), while the SSND payload starts at byte 20 (position 12 + 8). -/
theorem c2_witness :
    decodeLoop (3 + 2) aiffID CommState.init 0 0 0 0 0 []
        ⟨aiffFile (encChunk ssndID [0, 0, 0, 0, 0, 0, 0, 0, 0, 0] ++
          encChunk commID (commBody 1 2 8 [64, 14, 172, 68, 255, 255, 255, 255, 0, 0])), 12⟩ =
      decodeLoop 3 aiffID
        ⟨18, 1, 2, 8, IeeeFloatToInt [64, 14, 172, 68, 255, 255, 255, 255, 0, 0], [0, 0, 0, 0], []⟩
        1 8 (IeeeFloatToInt [64, 14, 172, 68, 255, 255, 255, 255, 0, 0]) 10 10 [(10, 12 + 34)]
        ⟨aiffFile (encChunk ssndID [0, 0, 0, 0, 0, 0, 0, 0, 0, 0] ++
          encChunk commID (commBody 1 2 8 [64, 14, 172, 68, 255, 255, 255, 255, 0, 0])),
         12 + 34⟩ ∧
    12 + 34 ≠ 12 + 8 :=
  c2_rewind_seek.2 3 CommState.init 0 0 []
    ⟨aiffFile (encChunk ssndID [0, 0, 0, 0, 0, 0, 0, 0, 0, 0] ++
      encChunk commID (commBody 1 2 8 [64, 14, 172, 68, 255, 255, 255, 255, 0, 0])), 12⟩
    [0, 0, 0, 0, 0, 0, 0, 0, 0, 0] 1 2 8 [64, 14, 172, 68, 255, 255, 255, 255, 0, 0] []
    (by decide) (by decide) (by decide) (by decide) (by decide) (by decide) (by decide)

/-- Counterexample for C2 as stated: two well-formed AIFF streams with the
same logical content (COMM: 1 channel, 2 frames, 8 bits, rate bytes
`40 0E AC 44 FF FF FF FF 00 00`; SSND: 10 zero bytes).  With SSND first the
mis-aimed rewind lands inside the COMM body, the loop re-reads the rate
bytes as a chunk header whose declared size is 0xFFFFFFFF, and `Decode`
fails with an io error; with COMM first it succeeds.  The results are not
identical, so order independence fails. -/
theorem c2_cex :
    Decode 10 ⟨aiffFile (encChunk ssndID [0, 0, 0, 0, 0, 0, 0, 0, 0, 0] ++
        encChunk commID (commBody 1 2 8 [64, 14, 172, 68, 255, 255, 255, 255, 0, 0])), 0⟩ =
      some (.error (.ioErr .eof)) ∧
    Decode 10 ⟨aiffFile (encChunk commID (commBody 1 2 8 [64, 14, 172, 68, 255, 255, 255, 255, 0, 0]) ++
        encChunk ssndID [0, 0, 0, 0, 0, 0, 0, 0, 0, 0]), 0⟩ =
      some (.ok ⟨1, 8, 44100, 10, [],
        ⟨aiffFile (encChunk commID (commBody 1 2 8 [64, 14, 172, 68, 255, 255, 255, 255, 0, 0]) ++
          encChunk ssndID [0, 0, 0, 0, 0, 0, 0, 0, 0, 0]), 56⟩⟩) :=
  ⟨rfl, rfl⟩

theorem decodeLoopS_eof (fuel : Nat) (chan : Bool) (fmt : List Nat) (d : CommState)
    (channels bitDepth sampleRate size rewind : Nat) (disp : List (List Nat × Nat))
    (s : ByteStream) (h : s.remaining = []) :
    decodeLoopS (fuel + 1) chan fmt d channels bitDepth sampleRate size rewind disp s =
      some (.ok ⟨channels, bitDepth, sampleRate, size, disp, s⟩) := by
  rw [decodeLoopS]
  rw [iDnSize_eof s h]
  simp

theorem decodeLoopS_step_other (fuel : Nat) (fmt : List Nat) (d : CommState)
    (channels bitDepth sampleRate size rewind : Nat) (disp : List (List Nat × Nat))
    (s : ByteStream) (id payload rest : List Nat)
    (h : s.remaining = encChunk id payload ++ rest)
    (hid4 : id.length = 4) (hc : id ≠ commID) (hs : id ≠ ssndID)
    (hlen : payload.length < 4294967296) :
    decodeLoopS (fuel + 1) true fmt d channels bitDepth sampleRate size rewind disp s =
      decodeLoopS fuel true fmt d channels bitDepth sampleRate size
        (if size ≠ 0 then rewind + payload.length else rewind)
        (disp ++ [(id, payload.length)]) ⟨s.data, s.pos + 8 + payload.length⟩ := by
  have h' : s.remaining = id ++ be32 payload.length ++ (payload ++ rest) := by
    rw [h]
    simp [encChunk, List.append_assoc]
  have h8 : (⟨s.data, s.pos + 8⟩ : ByteStream).remaining = payload ++ rest :=
    remaining_after s (id ++ be32 payload.length) (payload ++ rest) 8 h'
      (by simp [be32, hid4])
  rw [decodeLoopS]
  rw [iDnSize_ok s id (be32 payload.length) (payload ++ rest) h' hid4 (by simp [be32])]
  simp only [Option.isSome_none, Bool.false_eq_true, if_false, if_neg hc, if_neg hs,
    u32be_be32 payload.length hlen]
  unfold dispatchAdvance
  rw [jumpTo_ok ⟨s.data, s.pos + 8⟩ payload rest payload.length h8 rfl]
  simp

theorem decodeLoopS_step_ssnd_dispatch (fuel : Nat) (fmt : List Nat) (d : CommState)
    (channels bitDepth size rewind : Nat) (disp : List (List Nat × Nat))
    (s : ByteStream) (payload rest : List Nat)
    (h : s.remaining = encChunk ssndID payload ++ rest)
    (hlen : payload.length < 4294967296) :
    decodeLoopS (fuel + 1) true fmt d channels bitDepth 0 size rewind disp s =
      decodeLoopS fuel true fmt d channels bitDepth 0 payload.length
        (rewind + payload.length) (disp ++ [(ssndID, payload.length)])
        ⟨s.data, s.pos + 8 + payload.length⟩ := by
  have h' : s.remaining = ssndID ++ be32 payload.length ++ (payload ++ rest) := by
    rw [h]
    simp [encChunk, List.append_assoc]
  have h8 : (⟨s.data, s.pos + 8⟩ : ByteStream).remaining = payload ++ rest :=
    remaining_after s (ssndID ++ be32 payload.length) (payload ++ rest) 8 h'
      (by simp [be32, ssndID])
  rw [decodeLoopS]
  rw [iDnSize_ok s ssndID (be32 payload.length) (payload ++ rest) h' rfl rfl]
  have hne : ¬ (ssndID = commID) := by decide
  simp only [Option.isSome_none, Bool.false_eq_true, if_false,
    u32be_be32 payload.length hlen]
  unfold dispatchAdvance
  rw [jumpTo_ok ⟨s.data, s.pos + 8⟩ payload rest payload.length h8 rfl]
  simp [hne]

theorem decodeLoopS_step_ssnd_seen (fuel : Nat) (chan : Bool) (fmt : List Nat) (d : CommState)
    (channels bitDepth sampleRate size rewind : Nat) (disp : List (List Nat × Nat))
    (s : ByteStream) (payload rest : List Nat)
    (h : s.remaining = encChunk ssndID payload ++ rest)
    (hlen : payload.length < 4294967296) (hsr : sampleRate ≠ 0) :
    decodeLoopS (fuel + 1) chan fmt d channels bitDepth sampleRate size rewind disp s =
      decodeLoopS fuel chan fmt d channels bitDepth sampleRate payload.length rewind disp
        ⟨s.data, s.pos + 8⟩ := by
  have h' : s.remaining = ssndID ++ be32 payload.length ++ (payload ++ rest) := by
    rw [h]
    simp [encChunk, List.append_assoc]
  rw [decodeLoopS]
  rw [iDnSize_ok s ssndID (be32 payload.length) (payload ++ rest) h' rfl rfl]
  have hne : ¬ (ssndID = commID) := by decide
  simp only [Option.isSome_none, Bool.false_eq_true, if_false,
    u32be_be32 payload.length hlen]
  simp [hne, hsr]

theorem decodeLoopS_step_comm (fuel : Nat) (chan : Bool) (d : CommState)
    (channels bitDepth sampleRate size : Nat) (disp : List (List Nat × Nat))
    (s : ByteStream) (ch fr ss : Nat) (rate rest : List Nat)
    (h : s.remaining = encChunk commID (commBody ch fr ss rate) ++ rest)
    (hch : ch < 65536) (hfr : fr < 4294967296) (hss : ss < 65536)
    (hrate : rate.length = 10) :
    decodeLoopS (fuel + 1) chan aiffID d channels bitDepth sampleRate size 0 disp s =
      decodeLoopS fuel chan aiffID
        { d with
          commSize := 18
          numChans := ch
          numSampleFrames := fr
          sampleSize := ss
          sampleRate := IeeeFloatToInt rate }
        ch ss (IeeeFloatToInt rate) size 0 disp ⟨s.data, s.pos + 26⟩ := by
  have hbl : (commBody ch fr ss rate).length = 18 := by
    simp [commBody, be16, be32, hrate]
  have h' : s.remaining = commID ++ be32 (commBody ch fr ss rate).length ++
      (commBody ch fr ss rate ++ rest) := by
    rw [h]
    simp [encChunk, List.append_assoc]
  have h8 : (⟨s.data, s.pos + 8⟩ : ByteStream).remaining = commBody ch fr ss rate ++ rest :=
    remaining_after s (commID ++ be32 (commBody ch fr ss rate).length) _ 8 h'
      (by simp [be32, commID])
  rw [decodeLoopS]
  rw [iDnSize_ok s commID (be32 (commBody ch fr ss rate).length) _ h' rfl rfl]
  simp only [Option.isSome_none, Bool.false_eq_true, if_false,
    u32be_be32 (commBody ch fr ss rate).length (by rw [hbl]; omega)]
  rw [parseCommChunk_aiff (commBody ch fr ss rate).length d ⟨s.data, s.pos + 8⟩
    ch fr ss rate rest h8 hch hfr hss hrate]
  simp [hbl]

theorem decodeLoopS_skipAll (cs : List (List Nat × List Nat)) (fuel : Nat) (fmt : List Nat)
    (d : CommState) (channels bitDepth sampleRate rewind : Nat) (disp : List (List Nat × Nat))
    (s : ByteStream) (rest : List Nat)
    (h : s.remaining = encChunks cs ++ rest)
    (hcs : ∀ c ∈ cs, c.1.length = 4 ∧ c.1 ≠ commID ∧ c.1 ≠ ssndID ∧ c.2.length < 4294967296) :
    decodeLoopS (cs.length + fuel) true fmt d channels bitDepth sampleRate 0 rewind disp s =
      decodeLoopS fuel true fmt d channels bitDepth sampleRate 0 rewind
        (disp ++ cs.map (fun c => (c.1, c.2.length))) ⟨s.data, s.pos + (encChunks cs).length⟩ := by
  induction cs generalizing s disp with
  | nil =>
    simp [encChunks]
  | cons c cs ih =>
    have hc := hcs c (by simp)
    have hrest : s.remaining = encChunk c.1 c.2 ++ (encChunks cs ++ rest) := by
      rw [h, encChunks_cons, List.append_assoc]
    have hfuel : (c :: cs).length + fuel = cs.length + fuel + 1 := by
      simp
      omega
    rw [hfuel]
    rw [decodeLoopS_step_other (cs.length + fuel) fmt d channels bitDepth sampleRate 0 rewind
      disp s c.1 c.2 (encChunks cs ++ rest) hrest hc.1 hc.2.1 hc.2.2.1 hc.2.2.2]
    rw [if_neg (by simp)]
    have hrem : (⟨s.data, s.pos + (8 + c.2.length)⟩ : ByteStream).remaining =
        encChunks cs ++ rest :=
      remaining_after s (encChunk c.1 c.2) (encChunks cs ++ rest) (8 + c.2.length) hrest
        (encChunk_length c.1 c.2 hc.1)
    have e1 : s.pos + 8 + c.2.length = s.pos + (8 + c.2.length) := by omega
    rw [e1]
    rw [ih (disp ++ [(c.1, c.2.length)]) ⟨s.data, s.pos + (8 + c.2.length)⟩ hrem
      (fun c hm => hcs c (by simp [hm]))]
    have e2 : s.pos + (8 + c.2.length) + (encChunks cs).length =
        s.pos + (encChunks (c :: cs)).length := by
      rw [encChunks_cons]
      simp [encChunk_length c.1 c.2 hc.1]
      omega
    rw [e2]
    simp

theorem decodeLoopS_commFirst (pre mid : List (List Nat × List Nat)) (ch fr ss : Nat)
    (rate : List Nat) (d : CommState) (channels bitDepth : Nat)
    (disp : List (List Nat × Nat)) (s : ByteStream)
    (h : s.remaining = encChunks pre ++ (encChunk commID (commBody ch fr ss rate) ++
      (encChunks mid ++ encChunk ssndID [])))
    (hpre : ∀ c ∈ pre, c.1.length = 4 ∧ c.1 ≠ commID ∧ c.1 ≠ ssndID ∧ c.2.length < 4294967296)
    (hmid : ∀ c ∈ mid, c.1.length = 4 ∧ c.1 ≠ commID ∧ c.1 ≠ ssndID ∧ c.2.length < 4294967296)
    (hch : ch < 65536) (hfr : fr < 4294967296) (hss : ss < 65536)
    (hrate : rate.length = 10) (hsr : IeeeFloatToInt rate ≠ 0) :
    decodeLoopS (pre.length + (mid.length + 3)) true aiffID d channels bitDepth 0 0 0 disp s =
      some (.ok ⟨ch, ss, IeeeFloatToInt rate, 0,
        disp ++ (pre ++ mid).map (fun c => (c.1, c.2.length)),
        ⟨s.data, s.pos + ((encChunks pre).length + (26 + ((encChunks mid).length + 8)))⟩⟩) := by
  rw [decodeLoopS_skipAll pre (mid.length + 3) aiffID d channels bitDepth 0 0 disp s _ h hpre]
  have h1 : (⟨s.data, s.pos + (encChunks pre).length⟩ : ByteStream).remaining =
      encChunk commID (commBody ch fr ss rate) ++ (encChunks mid ++ encChunk ssndID []) :=
    remaining_after s (encChunks pre) _ (encChunks pre).length h rfl
  have hf1 : mid.length + 3 = (mid.length + 2) + 1 := by omega
  rw [hf1]
  rw [decodeLoopS_step_comm (mid.length + 2) true d channels bitDepth 0 0
    (disp ++ pre.map (fun c => (c.1, c.2.length)))
    ⟨s.data, s.pos + (encChunks pre).length⟩ ch fr ss rate _ h1 hch hfr hss hrate]
  have h2 : (⟨s.data, s.pos + (encChunks pre).length + 26⟩ : ByteStream).remaining =
      encChunks mid ++ encChunk ssndID [] := by
    have := remaining_after ⟨s.data, s.pos + (encChunks pre).length⟩
      (encChunk commID (commBody ch fr ss rate)) (encChunks mid ++ encChunk ssndID []) 26 h1
      (by simp [encChunk_length commID _ rfl, commBody, be16, be32, hrate])
    exact this
  have hf2 : mid.length + 2 = mid.length + (1 + 1) := by omega
  rw [hf2]
  rw [decodeLoopS_skipAll mid (1 + 1) aiffID _ ch ss (IeeeFloatToInt rate) 0
    (disp ++ pre.map (fun c => (c.1, c.2.length)))
    ⟨s.data, s.pos + (encChunks pre).length + 26⟩ _ h2 hmid]
  have h3 : (⟨s.data, s.pos + (encChunks pre).length + 26 + (encChunks mid).length⟩ :
      ByteStream).remaining = encChunk ssndID [] ++ [] := by
    have := remaining_after ⟨s.data, s.pos + (encChunks pre).length + 26⟩ (encChunks mid)
      (encChunk ssndID []) (encChunks mid).length h2 rfl
    rw [List.append_nil]
    exact this
  rw [decodeLoopS_step_ssnd_seen 1 true aiffID _ ch ss (IeeeFloatToInt rate) 0 0
    (disp ++ pre.map (fun c => (c.1, c.2.length)) ++ mid.map (fun c => (c.1, c.2.length)))
    ⟨s.data, s.pos + (encChunks pre).length + 26 + (encChunks mid).length⟩ [] [] h3
    (by simp) hsr]
  have h4 : (⟨s.data, s.pos + (encChunks pre).length + 26 + (encChunks mid).length + 8⟩ :
      ByteStream).remaining = [] := by
    have := remaining_after ⟨s.data,
      s.pos + (encChunks pre).length + 26 + (encChunks mid).length⟩
      (encChunk ssndID []) [] 8 h3 (by simp [encChunk_length ssndID [] rfl])
    exact this
  have heq := decodeLoopS_eof 0 true aiffID
    { d with
      commSize := 18
      numChans := ch
      numSampleFrames := fr
      sampleSize := ss
      sampleRate := IeeeFloatToInt rate }
    ch ss (IeeeFloatToInt rate) 0 0
    (disp ++ pre.map (fun c => (c.1, c.2.length)) ++ mid.map (fun c => (c.1, c.2.length)))
    ⟨s.data, s.pos + (encChunks pre).length + 26 + (encChunks mid).length + 8⟩ h4
  have e : s.pos + (encChunks pre).length + 26 + (encChunks mid).length + 8 =
      s.pos + ((encChunks pre).length + (26 + ((encChunks mid).length + 8))) := by omega
  have h5 : (some (.ok ⟨ch, ss, IeeeFloatToInt rate, 0,
      disp ++ pre.map (fun c => (c.1, c.2.length)) ++ mid.map (fun c => (c.1, c.2.length)),
      ⟨s.data, s.pos + (encChunks pre).length + 26 + (encChunks mid).length + 8⟩⟩) :
      Option (Except DErr DecodeOutS)) =
      some (.ok ⟨ch, ss, IeeeFloatToInt rate, 0,
      disp ++ (pre ++ mid).map (fun c => (c.1, c.2.length)),
      ⟨s.data, s.pos + ((encChunks pre).length + (26 + ((encChunks mid).length + 8)))⟩⟩) := by
    rw [e]
    simp [List.append_assoc]
  exact heq.trans h5

/-- C7 (amended): with a consumer channel registered, the chunks handed off
for a file of non-COMM/non-SSND chunks around a COMM chunk and a final empty
SSND chunk are exactly those non-COMM/non-SSND chunks, as (id, size) records
in file order; but an SSND chunk encountered before COMM has been parsed is
NOT advanced past silently — the second-version `Decode` calls
`dispatchToChan` for that skip, so the SSND chunk itself is handed to the
consumer (second conjunct, and the counterexample). -/
theorem c7_dispatch_chunks :
    (∀ (pre mid : List (List Nat × List Nat)) (ch fr ss : Nat) (rate : List Nat),
      (∀ c ∈ pre, c.1.length = 4 ∧ c.1 ≠ commID ∧ c.1 ≠ ssndID ∧ c.2.length < 4294967296) →
      (∀ c ∈ mid, c.1.length = 4 ∧ c.1 ≠ commID ∧ c.1 ≠ ssndID ∧ c.2.length < 4294967296) →
      ch < 65536 → fr < 4294967296 → ss < 65536 → rate.length = 10 →
      IeeeFloatToInt rate ≠ 0 →
      DecodeS (pre.length + (mid.length + 3)) true ⟨commFirstFile pre mid ch fr ss rate [], 0⟩ =
        some (.ok ⟨ch, ss, IeeeFloatToInt rate, 0,
          (pre ++ mid).map (fun c => (c.1, c.2.length)),
          ⟨commFirstFile pre mid ch fr ss rate [],
           12 + ((encChunks pre).length + (26 + ((encChunks mid).length + 8)))⟩⟩)) ∧
    (∀ (fuel : Nat) (fmt : List Nat) (d : CommState)
      (channels bitDepth size rewind : Nat) (disp : List (List Nat × Nat))
      (s : ByteStream) (payload rest : List Nat),
      s.remaining = encChunk ssndID payload ++ rest → payload.length < 4294967296 →
      decodeLoopS (fuel + 1) true fmt d channels bitDepth 0 size rewind disp s =
        decodeLoopS fuel true fmt d channels bitDepth 0 payload.length
          (rewind + payload.length) (disp ++ [(ssndID, payload.length)])
          ⟨s.data, s.pos + 8 + payload.length⟩) := by
  constructor
  · intro pre mid ch fr ss rate hpre hmid hch hfr hss hrate hsr
    have hrem0 : (⟨commFirstFile pre mid ch fr ss rate [], 0⟩ : ByteStream).remaining =
        formID ++ be32 ((encChunks pre ++ encChunk commID (commBody ch fr ss rate) ++
          encChunks mid ++ encChunk ssndID []).length + 4) ++ aiffID ++
        (encChunks pre ++ encChunk commID (commBody ch fr ss rate) ++
          encChunks mid ++ encChunk ssndID []) := by
      show (commFirstFile pre mid ch fr ss rate []).drop 0 = _
      simp [commFirstFile, aiffFile]
    unfold DecodeS
    rw [readHeaders_ok ⟨commFirstFile pre mid ch fr ss rate [], 0⟩ _ _ _ hrem0
      (by simp [be32]) rfl (Or.inl rfl)]
    simp only []
    have hrem12 : (⟨commFirstFile pre mid ch fr ss rate [], 0 + 12⟩ : ByteStream).remaining =
        encChunks pre ++ (encChunk commID (commBody ch fr ss rate) ++
          (encChunks mid ++ encChunk ssndID [])) := by
      have := remaining_after ⟨commFirstFile pre mid ch fr ss rate [], 0⟩
        (formID ++ be32 ((encChunks pre ++ encChunk commID (commBody ch fr ss rate) ++
          encChunks mid ++ encChunk ssndID []).length + 4) ++ aiffID)
        (encChunks pre ++ encChunk commID (commBody ch fr ss rate) ++
          encChunks mid ++ encChunk ssndID []) 12
        (by rw [hrem0]) (by simp [formID, aiffID, be32])
      rw [this]
      simp [List.append_assoc]
    rw [decodeLoopS_commFirst pre mid ch fr ss rate CommState.init 0 0 []
      ⟨commFirstFile pre mid ch fr ss rate [], 0 + 12⟩ hrem12 hpre hmid hch hfr hss hrate hsr]
    simp
  · intro fuel fmt d channels bitDepth size rewind disp s payload rest h hlen
    exact decodeLoopS_step_ssnd_dispatch fuel fmt d channels bitDepth size rewind disp s
      payload rest h hlen

/-- Witness for C7's first part: two other chunks, then COMM, then the empty
SSND; exactly the two other chunks are handed off, in order. -/
theorem c7_witness :
    DecodeS (2 + (0 + 3)) true
        ⟨commFirstFile [([1, 2, 3, 4], [9]), ([5, 6, 7, 8], [7, 7])] [] 1 2 8
          [64, 14, 172, 68, 0, 0, 0, 0, 0, 0] [], 0⟩ =
      some (.ok ⟨1, 8, IeeeFloatToInt [64, 14, 172, 68, 0, 0, 0, 0, 0, 0], 0,
        ([([1, 2, 3, 4], [9]), ([5, 6, 7, 8], [7, 7])] ++
          ([] : List (List Nat × List Nat))).map
          (fun c : List Nat × List Nat => (c.1, c.2.length)),
        ⟨commFirstFile [([1, 2, 3, 4], [9]), ([5, 6, 7, 8], [7, 7])] [] 1 2 8
          [64, 14, 172, 68, 0, 0, 0, 0, 0, 0] [],
         12 + ((encChunks [([1, 2, 3, 4], [9]), ([5, 6, 7, 8], [7, 7])]).length +
           (26 + ((encChunks ([] : List (List Nat × List Nat))).length + 8)))⟩⟩) :=
  c7_dispatch_chunks.1 [([1, 2, 3, 4], [9]), ([5, 6, 7, 8], [7, 7])] [] 1 2 8
    [64, 14, 172, 68, 0, 0, 0, 0, 0, 0]
    (by decide) (by decide) (by decide) (by decide) (by decide) (by decide) (by decide)

/-- Counterexample for C7 as stated: an SSND(2 bytes)-then-COMM stream with a
consumer channel registered.  The hand-off log of the decode is
`[(ssndID, 2)]`: the SSND chunk skipped before COMM was parsed was handed to
the consumer, not bypassed, contradicting both "only non-COMM, non-SSND
chunks are handed off" and "streaming mode is bypassed for that skip". -/
theorem c7_cex :
    DecodeS 10 true ⟨aiffFile (encChunk ssndID [9, 9] ++
        encChunk commID (commBody 1 2 8 [64, 14, 172, 68, 0, 0, 0, 0, 0, 0])), 0⟩ =
      some (.ok ⟨1, 8, 44100, 2, [(ssndID, 2)],
        ⟨aiffFile (encChunk ssndID [9, 9] ++
          encChunk commID (commBody 1 2 8 [64, 14, 172, 68, 0, 0, 0, 0, 0, 0])), 48⟩⟩) ∧
    ([(ssndID, 2)] : List (List Nat × Nat)) ≠ [] :=
  ⟨rfl, by decide⟩
